import Mathlib

/-!
# AWS070 — "AWS ES Domain should have logging enabled"

A shallow embedding of `internal/app/tfsec/checks/aws070.go` together with the
parts of the `parser` and `scanner` packages that the check calls.  The check
itself (`CheckFunc`, the registered `Check` record and its constants) is
translated from the Go source; the `parser`/`scanner` helpers it calls are not
part of the checked-in sources and are modelled from the specification, each
one marked as such.
-/

namespace Tfsec

/-! ## Data model (package `parser`) -/

/-- Modelled from the spec: the `parser.Range` type is missing; a source range is
(file, start line, end line). -/
structure Range where
  filename : String
  startLine : Int
  endLine : Int
  deriving DecidableEq

/-- Modelled from the spec: the value type of an attribute is missing; a value is
polymorphic: string, number, boolean, list, mapping, or unresolved reference.  Numbers
are taken as integers; no statement below depends on them. -/
inductive Value where
  | string (s : String)
  | number (n : Int)
  | bool (b : Bool)
  | list (items : List Value)
  | mapping (entries : List (String × Value))
  | unresolved (reference : String)

/-- Modelled from the spec: the literal handed to `Equals` (an empty Go interface) is a
numeric, boolean or string literal. -/
inductive Literal where
  | string (s : String)
  | number (n : Int)
  | bool (b : Bool)

/-- Modelled from the spec: the `parser.Attribute` type is missing; an attribute is a
single key-value pair (name, value, source range). -/
structure Attribute where
  name : String
  value : Value
  range : Range

/-- Modelled from the spec: the `parser.Block` type is missing; a block has a type,
labels, attributes (a mapping from attribute name to attribute), an ordered sequence
of child blocks and a source range. -/
inductive Block where
  | mk (blockType : String) (labels : List String) (attributes : List Attribute)
      (childBlocks : List Block) (sourceRange : Range)

/-- The type of a block. -/
def Block.blockType : Block → String
  | .mk t _ _ _ _ => t

/-- The labels of a block, in order. -/
def Block.labels : Block → List String
  | .mk _ ls _ _ _ => ls

/-- The attributes of a block. -/
def Block.attributes : Block → List Attribute
  | .mk _ _ as _ _ => as

/-- The direct child blocks of a block, in source order. -/
def Block.childBlocks : Block → List Block
  | .mk _ _ _ cs _ => cs

/-- Modelled from the spec: `block.Range()` is missing; it is the block's own
`sourceRange`. -/
def Block.Range : Block → Range
  | .mk _ _ _ _ r => r

/-- Modelled from the spec: `block.GetBlocks(name)` is missing; the string-keyed
block lookup returns the direct child blocks whose type is `name`, in order. -/
def Block.GetBlocks (block : Block) (name : String) : List Block :=
  block.childBlocks.filter (fun child => child.blockType == name)

/-- Modelled from the spec: `block.GetAttribute(name)` is missing; the nil-tolerant
string-keyed lookup in the attribute mapping, `none` standing for Go's `nil`. -/
def Block.GetAttribute (block : Block) (name : String) : Option Attribute :=
  block.attributes.find? (fun attr => attr.name == name)

/-- Modelled from the spec: `block.FullName()` is missing; the block identity that a
message may embed is the block type followed by the labels, dot-separated. -/
def Block.FullName (block : Block) : String :=
  ".".intercalate (block.blockType :: block.labels)

/-- Modelled from the spec: `attr.Equals(literal)` is missing; a numeric, boolean or
string literal is compared by value, strictly typed: a value of another type (in
particular a single-element list) is simply not equal. -/
def Attribute.Equals (attr : Attribute) (checkValue : Literal) : Bool :=
  match attr.value, checkValue with
  | .string s, .string t => s == t
  | .number n, .number m => n == m
  | .bool b, .bool c => b == c
  | _, _ => false

/-! ## Results, checks and the context (package `scanner`) -/

/-- Modelled from the spec: the severity type is missing; an ordered enumeration
INFO < WARNING < ERROR. -/
inductive Severity where
  | INFO
  | WARNING
  | ERROR
  deriving DecidableEq

/-- Modelled from the spec: the constant `scanner.SeverityError` is missing; it is the
severity ERROR. -/
def SeverityError : Severity := Severity.ERROR

/-- Modelled from the spec: the `scanner.Result` type is missing; a finding carries
the rule code, a message, a source range and a severity. -/
structure Result where
  ruleCode : String
  message : String
  sourceRange : Range
  severity : Severity
  deriving DecidableEq

/-- Modelled from the spec: the `scanner.Context` type is missing; the blocks of the
whole scan plus the inline ignore directives, keyed by rule code and line. -/
structure Context where
  blocks : List Block
  ignores : List (String × Int)

/-- Modelled from the spec: the type `scanner.CheckDocumentation` is missing; the
documentation of a rule (summary, explanation, good and bad example, links), with the
fields that the registration in `init` fills. -/
structure CheckDocumentation where
  Summary : String
  Explanation : String
  BadExample : String
  GoodExample : String
  Links : List String

/-- Modelled from the spec: the type `scanner.Check` is missing; the registration
record of a rule, with the fields that the registration in `init` fills.  The
`CheckFunc` field is the separate function `CheckFunc` below, which receives this
record as its first argument. -/
structure Check where
  Code : String
  Documentation : CheckDocumentation
  Provider : String
  RequiredTypes : List String
  RequiredLabels : List String

/-- Modelled from the spec: `check.NewResult(description, range, severity)` is
missing; it builds the finding for this check: the check's code, the given message,
range and severity. -/
def Check.NewResult (check : Check) (description : String) (range : Range)
    (severity : Severity) : Result :=
  ⟨check.Code, description, range, severity⟩

/-! ## The check (package `checks`, file `aws070.go`) -/

/-- The rule code of the check. -/
def AWSESDomainLoggingEnabled : String := "AWS070"

/-- The summary of the check. -/
def AWSESDomainLoggingEnabledDescription : String :=
  "AWS ES Domain should have logging enabled"

/-- The explanation of the check. -/
def AWSESDomainLoggingEnabledExplanation : String :=
  "\nAWS ES domain should have logging enabled by default.\n"

/-- The bad example of the check. -/
def AWSESDomainLoggingEnabledBadExample : String :=
  "\nresource \"aws_elasticsearch_domain\" \"example\" \x7b\n  // other config\n\n  // One of the log_publishing_options has to be AUDIT_LOGS\n  log_publishing_options \x7b\n    cloudwatch_log_group_arn = aws_cloudwatch_log_group.example.arn\n    log_type                 = \"INDEX_SLOW_LOGS\"\n  \x7d\n\x7d\n"

/-- The good example of the check. -/
def AWSESDomainLoggingEnabledGoodExample : String :=
  "\nresource \"aws_elasticsearch_domain\" \"example\" \x7b\n  // other config\n\n  // At minimum we should have AUDIT_LOGS enabled\n  log_publishing_options \x7b\n    cloudwatch_log_group_arn = aws_cloudwatch_log_group.example.arn\n    log_type                 = \"AUDIT_LOGS\"\n  \x7d\n\x7d\n"

/-- Modelled from the spec: the constant `scanner.AWSProvider` is missing; the
provider discriminator of AWS rules is "aws". -/
def AWSProvider : String := "aws"

/-- The body of the `for ... range logPublishingOptions` loop: the next value of
`auditLogFound` after visiting one `logPublishingOption`. -/
def auditLogStep (auditLogFound : Bool) (logPublishingOption : Block) : Bool :=
  match logPublishingOption.GetAttribute "log_type" with
  | some logType => if logType.Equals (Literal.string "AUDIT_LOGS") then true else auditLogFound
  | none => auditLogFound

/-- The text of the finding, `fmt.Sprintf` applied to the block's full name. -/
def auditLogMessage (block : Block) : String :=
  "Resource \x27" ++ block.FullName ++
    "\x27 is missing \x27AUDIT_LOGS` in one of the `log_publishing_options`-`log_type` attributes so audit log is not enabled"

/-- The check function of AWS070. -/
def CheckFunc (check : Check) (block : Block) (_ : Context) : List Result :=
  let logPublishingOptions := block.GetBlocks "log_publishing_options"
  if logPublishingOptions.length > 0 then
    let auditLogFound := logPublishingOptions.foldl auditLogStep false
    if !auditLogFound then
      [check.NewResult (auditLogMessage block) block.Range SeverityError]
    else
      []
  else
    []

/-- The check as registered by `init`. -/
def AWS070 : Check :=
  ⟨AWSESDomainLoggingEnabled,
   ⟨AWSESDomainLoggingEnabledDescription, AWSESDomainLoggingEnabledExplanation,
    AWSESDomainLoggingEnabledBadExample, AWSESDomainLoggingEnabledGoodExample,
    ["https://registry.terraform.io/providers/hashicorp/aws/latest/docs/resources/elasticsearch_domain#log_publishing_options"]⟩,
   AWSProvider, ["resource"], ["aws_elasticsearch_domain"]⟩

/-! ## The registry (package `scanner`) -/

/-- Modelled from the spec: the registry's matching rule is missing; a rule is returned
for (provider, blockType, labels) when its provider matches (or is the wildcard), its
required block types are empty or contain the block type, and its required labels are
empty or a prefix of the labels.  The wildcard provider is a parameter. -/
def Check.appliesTo (check : Check) (wildcard provider blockType : String)
    (labels : List String) : Bool :=
  (check.Provider == provider || check.Provider == wildcard) &&
  (check.RequiredTypes.isEmpty || check.RequiredTypes.contains blockType) &&
  (check.RequiredLabels.isEmpty || check.RequiredLabels.isPrefixOf labels)

/-! ## The check with the memory passed explicitly

The Go function receives pointers to the block and to the context.  Here the memory
behind those pointers is a `Store` that every statement of the body takes and hands on
(`StateM Store`), so that a statement writing to the block tree or to the context
would show as a changed store. -/

/-- The memory that the check function reaches through its pointer arguments: the
block (with the tree below it) and the context. -/
structure Store where
  block : Block
  context : Context

/-- Modelled from the spec: the methods of `parser.Block` are missing; a block is
immutable after construction, so a method call on the block pointer reads the block
that is in the store and hands the store on as it found it. -/
def onBlock {α : Type} (method : Block → α) : StateM Store α := do
  let store ← get
  pure (method store.block)

/-- Modelled from the spec: the methods called on a child block, on an attribute and on
the check (`GetAttribute`, `Equals`, `NewResult`) are missing; attribute lookup is a
nil-tolerant read, equality is a side-effect-free predicate and `NewResult` builds a
new record, so such a call yields its value and hands the store on as it found it. -/
def helperCall {α : Type} (value : α) : StateM Store α :=
  pure value

/-- The body of the `for ... range logPublishingOptions` loop, with the store passed
through its two calls. -/
def auditLogStepStore (auditLogFound : Bool) (logPublishingOption : Block) :
    StateM Store Bool := do
  let logType ← helperCall (logPublishingOption.GetAttribute "log_type")
  match logType with
  | some logType =>
    let isAuditLogs ← helperCall (logType.Equals (Literal.string "AUDIT_LOGS"))
    if isAuditLogs then pure true else pure auditLogFound
  | none => pure auditLogFound

/-- The check function of AWS070 with the store passed through every statement; the
context parameter of the source is bound to `_`, so no statement names the context. -/
def CheckFuncStore (check : Check) : StateM Store (List Result) := do
  let logPublishingOptions ← onBlock (fun block => block.GetBlocks "log_publishing_options")
  if logPublishingOptions.length > 0 then
    let auditLogFound ← logPublishingOptions.foldlM auditLogStepStore false
    if !auditLogFound then
      let message ← onBlock auditLogMessage
      let range ← onBlock Block.Range
      let result ← helperCall (check.NewResult message range SeverityError)
      pure [result]
    else
      pure []
  else
    pure []

/-! ## Vocabulary of the statements -/

/-- The `log_type` attribute of the block is set and its value is the string
"AUDIT_LOGS". -/
def HasAuditLogType (child : Block) : Prop :=
  ∃ attr, child.GetAttribute "log_type" = some attr ∧ attr.value = Value.string "AUDIT_LOGS"

/-- The block `child` is a direct child of `block` of type `log_publishing_options`. -/
def IsLogPublishingOption (block child : Block) : Prop :=
  child ∈ block.childBlocks ∧ child.blockType = "log_publishing_options"

/-! ## Sample blocks -/

/-- A `log_publishing_options` block with the given attributes. -/
def logOption (attrs : List Attribute) : Block :=
  Block.mk "log_publishing_options" [] attrs [] ⟨"main.tf", 6, 9⟩

/-- The `cloudwatch_log_group_arn` attribute of the examples, an unresolved reference. -/
def arnAttr : Attribute :=
  ⟨"cloudwatch_log_group_arn", Value.unresolved "aws_cloudwatch_log_group.example.arn",
    ⟨"main.tf", 7, 7⟩⟩

/-- A `log_type` attribute with the given value. -/
def logTypeAttr (v : Value) : Attribute :=
  ⟨"log_type", v, ⟨"main.tf", 8, 8⟩⟩

/-- The resource block `aws_elasticsearch_domain.example` with the given children. -/
def domain (children : List Block) : Block :=
  Block.mk "resource" ["aws_elasticsearch_domain", "example"] [] children ⟨"main.tf", 2, 10⟩

/-- The block of the bad example: one child, `log_type = "INDEX_SLOW_LOGS"`. -/
def badExampleBlock : Block :=
  domain [logOption [arnAttr, logTypeAttr (Value.string "INDEX_SLOW_LOGS")]]

/-- The block of the good example: one child, `log_type = "AUDIT_LOGS"`. -/
def goodExampleBlock : Block :=
  domain [logOption [arnAttr, logTypeAttr (Value.string "AUDIT_LOGS")]]

/-- A context with no blocks and no ignore directives. -/
def emptyContext : Context := ⟨[], []⟩

/-- A context holding the bad example and one ignore directive. -/
def busyContext : Context := ⟨[badExampleBlock], [("AWS070", 2)]⟩

/-- The `log_publishing_options` child of `auditElsewhereBlock`: its own `log_type` is
"INDEX_SLOW_LOGS", and a block nested below it has `log_type = "AUDIT_LOGS"`. -/
def slowLogOptionWithNested : Block :=
  Block.mk "log_publishing_options" []
    [arnAttr, logTypeAttr (Value.string "INDEX_SLOW_LOGS")]
    [logOption [logTypeAttr (Value.string "AUDIT_LOGS")]] ⟨"main.tf", 6, 9⟩

/-- A direct child of another type, `cluster_config`, with `log_type = "AUDIT_LOGS"`. -/
def otherTypeChild : Block :=
  Block.mk "cluster_config" [] [logTypeAttr (Value.string "AUDIT_LOGS")] [] ⟨"main.tf", 3, 5⟩

/-- A domain with `log_type = "AUDIT_LOGS"` everywhere but in a direct
`log_publishing_options` child: as an attribute of the resource block itself, in a
direct child of another type, and in a block nested below the
`log_publishing_options` child. -/
def auditElsewhereBlock : Block :=
  Block.mk "resource" ["aws_elasticsearch_domain", "example"]
    [logTypeAttr (Value.string "AUDIT_LOGS")]
    [otherTypeChild, slowLogOptionWithNested] ⟨"main.tf", 2, 10⟩

/-! ## Lemmas about the helpers and the loop -/

theorem Equals_string_iff (attr : Attribute) (t : String) :
    attr.Equals (Literal.string t) = true ↔ attr.value = Value.string t := by
  unfold Attribute.Equals
  cases attr.value <;> simp

theorem mem_GetBlocks_iff (block child : Block) :
    child ∈ block.GetBlocks "log_publishing_options" ↔ IsLogPublishingOption block child := by
  simp [Block.GetBlocks, IsLogPublishingOption]

theorem auditLogStep_true (child : Block) : auditLogStep true child = true := by
  unfold auditLogStep
  split <;> simp

theorem foldl_auditLogStep_true (children : List Block) :
    children.foldl auditLogStep true = true := by
  induction children with
  | nil => rfl
  | cons c cs ih => simp [List.foldl_cons, auditLogStep_true, ih]

theorem auditLogStep_false_iff (child : Block) :
    auditLogStep false child = true ↔ HasAuditLogType child := by
  unfold auditLogStep HasAuditLogType
  cases h : child.GetAttribute "log_type" with
  | none => simp
  | some attr =>
    by_cases he : attr.Equals (Literal.string "AUDIT_LOGS") = true
    · simp [he, (Equals_string_iff attr "AUDIT_LOGS").1 he]
    · have hv : ¬ attr.value = Value.string "AUDIT_LOGS" :=
        fun hv => he ((Equals_string_iff attr "AUDIT_LOGS").2 hv)
      simp [he, hv]

theorem foldl_auditLogStep_iff (children : List Block) :
    children.foldl auditLogStep false = true ↔ ∃ c ∈ children, HasAuditLogType c := by
  induction children with
  | nil => simp
  | cons c cs ih =>
    rw [List.foldl_cons]
    by_cases hc : auditLogStep false c = true
    · rw [hc, foldl_auditLogStep_true]
      simp only [true_iff]
      exact ⟨c, List.mem_cons_self c cs, (auditLogStep_false_iff c).1 hc⟩
    · have hf : auditLogStep false c = false := by simpa using hc
      have hn : ¬ HasAuditLogType c := fun h => hc ((auditLogStep_false_iff c).2 h)
      rw [hf, ih]
      constructor
      · rintro ⟨d, hd, hda⟩
        exact ⟨d, List.mem_cons_of_mem c hd, hda⟩
      · rintro ⟨d, hd, hda⟩
        rcases List.mem_cons.1 hd with rfl | hd
        · exact absurd hda hn
        · exact ⟨d, hd, hda⟩

/-- The check returns the one finding when there is a `log_publishing_options` child
and no such child has the "AUDIT_LOGS" log type. -/
theorem CheckFunc_of_missing (check : Check) (block : Block) (ctx : Context)
    (hex : ∃ c, IsLogPublishingOption block c)
    (hno : ∀ c, IsLogPublishingOption block c → ¬ HasAuditLogType c) :
    CheckFunc check block ctx =
      [check.NewResult (auditLogMessage block) block.Range SeverityError] := by
  obtain ⟨c, hc⟩ := hex
  have hmem : c ∈ block.GetBlocks "log_publishing_options" := (mem_GetBlocks_iff block c).2 hc
  have hlen : (block.GetBlocks "log_publishing_options").length > 0 :=
    List.length_pos_of_mem hmem
  have hfold : (block.GetBlocks "log_publishing_options").foldl auditLogStep false = false := by
    cases hf : (block.GetBlocks "log_publishing_options").foldl auditLogStep false with
    | false => rfl
    | true =>
      obtain ⟨d, hd, hda⟩ := (foldl_auditLogStep_iff _).1 hf
      exact absurd hda (hno d ((mem_GetBlocks_iff block d).1 hd))
  simp [CheckFunc, hlen, hfold]

/-- The check returns nothing when some `log_publishing_options` child has the
"AUDIT_LOGS" log type. -/
theorem CheckFunc_of_audit (check : Check) (block : Block) (ctx : Context)
    (h : ∃ c, IsLogPublishingOption block c ∧ HasAuditLogType c) :
    CheckFunc check block ctx = [] := by
  obtain ⟨c, hc, hca⟩ := h
  have hfold : (block.GetBlocks "log_publishing_options").foldl auditLogStep false = true :=
    (foldl_auditLogStep_iff _).2 ⟨c, (mem_GetBlocks_iff block c).2 hc, hca⟩
  simp [CheckFunc, hfold]

/-- The check returns nothing when the block has no `log_publishing_options` child. -/
theorem CheckFunc_of_none (check : Check) (block : Block) (ctx : Context)
    (h : ¬ ∃ c, IsLogPublishingOption block c) :
    CheckFunc check block ctx = [] := by
  have hnil : block.GetBlocks "log_publishing_options" = [] := by
    apply List.eq_nil_iff_forall_not_mem.2
    intro c hc
    exact h ⟨c, (mem_GetBlocks_iff block c).1 hc⟩
  simp [CheckFunc, hnil]

/-- Every finding of the check is the one finding built from the check and the block. -/
theorem eq_of_mem_CheckFunc (check : Check) (block : Block) (ctx : Context) (r : Result)
    (h : r ∈ CheckFunc check block ctx) :
    r = check.NewResult (auditLogMessage block) block.Range SeverityError := by
  unfold CheckFunc at h
  simp only at h
  split at h
  · split at h
    · simpa using h
    · simp at h
  · simp at h

/-! ## Lemmas about the check with the memory passed explicitly -/

theorem onBlock_run {α : Type} (method : Block → α) (store : Store) :
    (onBlock method).run store = (method store.block, store) := rfl

theorem helperCall_run {α : Type} (value : α) (store : Store) :
    (helperCall value).run store = (value, store) := rfl

theorem auditLogStepStore_run (auditLogFound : Bool) (child : Block) (store : Store) :
    (auditLogStepStore auditLogFound child).run store =
      (auditLogStep auditLogFound child, store) := by
  unfold auditLogStepStore auditLogStep helperCall
  cases child.GetAttribute "log_type" with
  | none => rfl
  | some attr =>
    cases h : attr.Equals (Literal.string "AUDIT_LOGS") <;>
      simp [h, StateT.run, bind, StateT.bind, pure, StateT.pure]

theorem foldlM_auditLogStepStore_run (children : List Block) (auditLogFound : Bool)
    (store : Store) :
    (children.foldlM auditLogStepStore auditLogFound).run store =
      (children.foldl auditLogStep auditLogFound, store) := by
  induction children generalizing auditLogFound with
  | nil => rfl
  | cons c cs ih =>
    rw [List.foldlM_cons, StateT.run_bind, auditLogStepStore_run]
    exact ih _

/-- The store records writes: a statement that replaces the context leaves a store
that differs from the one it started on. -/
theorem store_records_write :
    ((set (Store.mk badExampleBlock emptyContext) : StateM Store PUnit).run
      ⟨badExampleBlock, busyContext⟩).2.context.ignores ≠ busyContext.ignores := by
  decide

/-- Running the check on a store returns the findings of `CheckFunc` for the block and
context in the store, and leaves the store as it was. -/
theorem CheckFuncStore_run (check : Check) (store : Store) :
    (CheckFuncStore check).run store =
      (CheckFunc check store.block store.context, store) := by
  unfold CheckFuncStore CheckFunc
  rw [StateT.run_bind, onBlock_run]
  simp only [Id.bind_eq]
  by_cases hlen : (store.block.GetBlocks "log_publishing_options").length > 0
  · simp only [hlen, if_true, StateT.run_bind, foldlM_auditLogStepStore_run, Id.bind_eq]
    cases (store.block.GetBlocks "log_publishing_options").foldl auditLogStep false
    · simp only [Bool.not_false, if_true, StateT.run_bind, onBlock_run, helperCall_run,
        Id.bind_eq]
      rfl
    · rfl
  · simp only [hlen, if_false]
    rfl

/-! ## Facts about the sample blocks -/

theorem badExampleBlock_has_option :
    ∃ c ∈ badExampleBlock.childBlocks, c.blockType = "log_publishing_options" :=
  ⟨_, List.mem_singleton.2 rfl, rfl⟩

theorem not_hasAuditLogType_of_step (child : Block) (h : auditLogStep false child = false) :
    ¬ HasAuditLogType child := by
  intro ha
  rw [(auditLogStep_false_iff child).2 ha] at h
  exact Bool.noConfusion h

theorem badExampleBlock_no_audit :
    ∀ c ∈ badExampleBlock.childBlocks, c.blockType = "log_publishing_options" →
      ¬ HasAuditLogType c := by
  intro c hc _
  rw [List.mem_singleton.1 hc]
  exact not_hasAuditLogType_of_step _ (by decide)

/-! ## The claims -/

/-- C1: a block that has at least one direct child block of type
`log_publishing_options`, none of which has a `log_type` attribute equal to the
string "AUDIT_LOGS", gets exactly one finding from the check, and that finding has
severity ERROR. -/
theorem c1_missing_audit_one_error_finding (check : Check) (block : Block) (ctx : Context)
    (hex : ∃ c ∈ block.childBlocks, c.blockType = "log_publishing_options")
    (hno : ∀ c ∈ block.childBlocks, c.blockType = "log_publishing_options" →
      ¬ HasAuditLogType c) :
    ∃ r, CheckFunc check block ctx = [r] ∧ r.severity = Severity.ERROR := by
  obtain ⟨c, hc, hct⟩ := hex
  exact ⟨_, CheckFunc_of_missing check block ctx ⟨c, hc, hct⟩ (fun d hd => hno d hd.1 hd.2), rfl⟩

/-- The bad example of the check gets exactly one finding, of severity ERROR. -/
theorem c1_missing_audit_one_error_finding_witness :
    (∃ c ∈ badExampleBlock.childBlocks, c.blockType = "log_publishing_options") ∧
    (∀ c ∈ badExampleBlock.childBlocks, c.blockType = "log_publishing_options" →
      ¬ HasAuditLogType c) ∧
    ∃ r, CheckFunc AWS070 badExampleBlock emptyContext = [r] ∧ r.severity = Severity.ERROR :=
  ⟨badExampleBlock_has_option, badExampleBlock_no_audit,
    c1_missing_audit_one_error_finding AWS070 badExampleBlock emptyContext
      badExampleBlock_has_option badExampleBlock_no_audit⟩

/-- C2: a block that has at least one direct child block of type
`log_publishing_options` whose `log_type` attribute equals the string "AUDIT_LOGS"
gets no finding, whatever its other children and attributes are. -/
theorem c2_audit_child_no_finding (check : Check) (block : Block) (ctx : Context)
    (h : ∃ c ∈ block.childBlocks, c.blockType = "log_publishing_options" ∧
      HasAuditLogType c) :
    CheckFunc check block ctx = [] := by
  obtain ⟨c, hc, hct, hca⟩ := h
  exact CheckFunc_of_audit check block ctx ⟨c, ⟨hc, hct⟩, hca⟩

/-- The good example of the check gets no finding. -/
theorem c2_audit_child_no_finding_witness :
    (∃ c ∈ goodExampleBlock.childBlocks, c.blockType = "log_publishing_options" ∧
      HasAuditLogType c) ∧
    CheckFunc AWS070 goodExampleBlock emptyContext = [] :=
  have h : ∃ c ∈ goodExampleBlock.childBlocks, c.blockType = "log_publishing_options" ∧
      HasAuditLogType c :=
    ⟨_, List.mem_singleton.2 rfl, rfl, logTypeAttr (Value.string "AUDIT_LOGS"), rfl, rfl⟩
  ⟨h, c2_audit_child_no_finding AWS070 goodExampleBlock emptyContext h⟩

/-- C3, as stated, fails: the resource block `aws_elasticsearch_domain.example` with
no children has no direct `log_publishing_options` child whose `log_type` equals
"AUDIT_LOGS", and yet the check returns no finding for it. -/
theorem c3_no_logging_configured_no_finding :
    (¬ ∃ c ∈ (domain []).childBlocks, c.blockType = "log_publishing_options" ∧
      HasAuditLogType c) ∧
    CheckFunc AWS070 (domain []) emptyContext = [] := by
  refine ⟨?_, rfl⟩
  rintro ⟨c, hc, _⟩
  exact absurd hc (List.not_mem_nil c)

/-- C3, amended: the check returns a finding if and only if the block has at least
one direct `log_publishing_options` child and none of its direct
`log_publishing_options` children has `log_type` equal to "AUDIT_LOGS"; so a block with
no `log_publishing_options` child at all gets no finding. -/
theorem c3_finding_iff_options_without_audit (check : Check) (block : Block)
    (ctx : Context) :
    CheckFunc check block ctx ≠ [] ↔
      (∃ c ∈ block.childBlocks, c.blockType = "log_publishing_options") ∧
      ¬ ∃ c ∈ block.childBlocks, c.blockType = "log_publishing_options" ∧
        HasAuditLogType c := by
  constructor
  · intro hne
    constructor
    · by_contra hn
      apply hne
      apply CheckFunc_of_none
      rintro ⟨c, hc, hct⟩
      exact hn ⟨c, hc, hct⟩
    · rintro ⟨c, hc, hct, hca⟩
      exact hne (CheckFunc_of_audit check block ctx ⟨c, ⟨hc, hct⟩, hca⟩)
  · rintro ⟨⟨c, hc, hct⟩, hno⟩
    rw [CheckFunc_of_missing check block ctx ⟨c, hc, hct⟩
      (fun d hd hda => hno ⟨d, hd.1, hd.2, hda⟩)]
    exact List.cons_ne_nil _ _

/-- C4: a `log_publishing_options` child without a `log_type` attribute leaves the
loop's flag as it was (it is a valid child that does not provide audit logging), and a
block whose `log_publishing_options` children are non-empty and all lack `log_type`
gets exactly one finding. -/
theorem c4_absent_log_type_tolerated (check : Check) (block : Block) (ctx : Context)
    (hex : ∃ c ∈ block.childBlocks, c.blockType = "log_publishing_options")
    (hall : ∀ c ∈ block.childBlocks, c.blockType = "log_publishing_options" →
      c.GetAttribute "log_type" = none) :
    (∀ c ∈ block.GetBlocks "log_publishing_options", ∀ auditLogFound : Bool,
      auditLogStep auditLogFound c = auditLogFound) ∧
    (CheckFunc check block ctx).length = 1 := by
  constructor
  · intro c hc found
    have hlp := (mem_GetBlocks_iff block c).1 hc
    simp [auditLogStep, hall c hlp.1 hlp.2]
  · obtain ⟨c, hc, hct⟩ := hex
    rw [CheckFunc_of_missing check block ctx ⟨c, hc, hct⟩]
    · rfl
    · rintro d hd ⟨attr, hattr, _⟩
      rw [hall d hd.1 hd.2] at hattr
      exact Option.noConfusion hattr

/-- A domain whose two `log_publishing_options` children both lack `log_type` gets
exactly one finding. -/
theorem c4_absent_log_type_tolerated_witness :
    (∀ c ∈ (domain [logOption [arnAttr], logOption []]).GetBlocks "log_publishing_options",
      ∀ auditLogFound : Bool, auditLogStep auditLogFound c = auditLogFound) ∧
    (CheckFunc AWS070 (domain [logOption [arnAttr], logOption []]) emptyContext).length = 1 :=
  c4_absent_log_type_tolerated AWS070 (domain [logOption [arnAttr], logOption []]) emptyContext
    ⟨_, List.mem_cons_self _ _, rfl⟩
    (by
      intro c hc _
      rcases List.mem_cons.1 hc with rfl | hc
      · rfl
      · rw [List.mem_singleton.1 hc]; rfl)

/-- C5: the comparison of a `log_type` value that is not a string with "AUDIT_LOGS"
is false (it is total and strictly typed), the single-element list ["AUDIT_LOGS"] is
not unwrapped, and a block whose only `log_publishing_options` child has
`log_type = ["AUDIT_LOGS"]` gets exactly one finding. -/
theorem c5_equals_strictly_typed (attr logType : Attribute) (check : Check)
    (block child : Block) (ctx : Context)
    (hns : ∀ s, attr.value ≠ Value.string s)
    (honly : block.GetBlocks "log_publishing_options" = [child])
    (hget : child.GetAttribute "log_type" = some logType)
    (hval : logType.value = Value.list [Value.string "AUDIT_LOGS"]) :
    attr.Equals (Literal.string "AUDIT_LOGS") = false ∧
    logType.Equals (Literal.string "AUDIT_LOGS") = false ∧
    (CheckFunc check block ctx).length = 1 := by
  have hattr : attr.Equals (Literal.string "AUDIT_LOGS") = false := by
    cases h : attr.Equals (Literal.string "AUDIT_LOGS") with
    | false => rfl
    | true => exact absurd ((Equals_string_iff attr "AUDIT_LOGS").1 h) (hns "AUDIT_LOGS")
  have hlist : logType.Equals (Literal.string "AUDIT_LOGS") = false := by
    simp [Attribute.Equals, hval]
  refine ⟨hattr, hlist, ?_⟩
  simp [CheckFunc, honly, auditLogStep, hget, hlist]

/-- A numeric `log_type` is not equal to "AUDIT_LOGS", and the domain whose only
`log_publishing_options` child has `log_type = ["AUDIT_LOGS"]` gets one finding. -/
theorem c5_equals_strictly_typed_witness :
    (logTypeAttr (Value.number 5)).Equals (Literal.string "AUDIT_LOGS") = false ∧
    (logTypeAttr (Value.list [Value.string "AUDIT_LOGS"])).Equals
      (Literal.string "AUDIT_LOGS") = false ∧
    (CheckFunc AWS070
      (domain [logOption [arnAttr, logTypeAttr (Value.list [Value.string "AUDIT_LOGS"])]])
      emptyContext).length = 1 :=
  c5_equals_strictly_typed (logTypeAttr (Value.number 5))
    (logTypeAttr (Value.list [Value.string "AUDIT_LOGS"])) AWS070
    (domain [logOption [arnAttr, logTypeAttr (Value.list [Value.string "AUDIT_LOGS"])]])
    (logOption [arnAttr, logTypeAttr (Value.list [Value.string "AUDIT_LOGS"])]) emptyContext
    (fun _ h => Value.noConfusion h) rfl rfl rfl

/-- C6: the source range of every finding the check returns for a block is the source
range of that block. -/
theorem c6_finding_range_is_block_range (check : Check) (block : Block) (ctx : Context)
    (r : Result) (h : r ∈ CheckFunc check block ctx) :
    r.sourceRange = block.Range := by
  rw [eq_of_mem_CheckFunc check block ctx r h]
  rfl

/-- The finding of the bad example carries the range of the resource block, lines 2
to 10 of `main.tf`, not the range of the child (lines 6 to 9). -/
theorem c6_finding_range_is_block_range_witness :
    AWS070.NewResult (auditLogMessage badExampleBlock) ⟨"main.tf", 2, 10⟩ SeverityError ∈
      CheckFunc AWS070 badExampleBlock busyContext ∧
    (AWS070.NewResult (auditLogMessage badExampleBlock) ⟨"main.tf", 2, 10⟩
      SeverityError).sourceRange = badExampleBlock.Range :=
  have hmem : AWS070.NewResult (auditLogMessage badExampleBlock) ⟨"main.tf", 2, 10⟩
      SeverityError ∈ CheckFunc AWS070 badExampleBlock busyContext :=
    List.mem_singleton.2 rfl
  ⟨hmem, c6_finding_range_is_block_range AWS070 badExampleBlock busyContext _ hmem⟩

/-- C7: every finding the check returns carries the rule code of the check it was
invoked with ("AWS070" for the registered check) and severity ERROR, never INFO or
WARNING. -/
theorem c7_finding_code_and_severity (check : Check) (block : Block) (ctx : Context)
    (r : Result) (h : r ∈ CheckFunc check block ctx) :
    r.ruleCode = check.Code ∧ (check.Code = AWS070.Code → r.ruleCode = "AWS070") ∧
    r.severity = Severity.ERROR ∧ r.severity ≠ Severity.INFO ∧
    r.severity ≠ Severity.WARNING := by
  rw [eq_of_mem_CheckFunc check block ctx r h]
  refine ⟨rfl, fun hc => ?_, rfl, ?_, ?_⟩
  · show check.Code = "AWS070"
    rw [hc]
    rfl
  · intro hs
    exact Severity.noConfusion hs
  · intro hs
    exact Severity.noConfusion hs

/-- The finding for a domain with two non-audit children carries the code "AWS070" and
severity ERROR. -/
theorem c7_finding_code_and_severity_witness :
    ∃ r, r ∈ CheckFunc AWS070
        (domain [logOption [logTypeAttr (Value.string "ES_APPLICATION_LOGS")], logOption []])
        emptyContext ∧
      r.ruleCode = "AWS070" ∧ r.severity = Severity.ERROR :=
  have hmem : AWS070.NewResult
      (auditLogMessage
        (domain [logOption [logTypeAttr (Value.string "ES_APPLICATION_LOGS")], logOption []]))
      ⟨"main.tf", 2, 10⟩ SeverityError ∈
      CheckFunc AWS070
        (domain [logOption [logTypeAttr (Value.string "ES_APPLICATION_LOGS")], logOption []])
        emptyContext :=
    List.mem_singleton.2 rfl
  have hc := c7_finding_code_and_severity AWS070 _ emptyContext _ hmem
  ⟨_, hmem, hc.1, hc.2.2.1⟩

/-- C8: the rule as registered (provider "aws", required types ["resource"], required
labels ["aws_elasticsearch_domain"]) applies to every block of type "resource" with
labels ["aws_elasticsearch_domain", y]; it applies neither to a resource block whose
first label is another string, nor to a block with no labels, nor to a block whose
type is not "resource". -/
theorem c8_registered_rule_applies (wildcard provider y x anyType blockType : String)
    (rest labels : List String)
    (hx : x ≠ "aws_elasticsearch_domain") (ht : blockType ≠ "resource") :
    (AWS070.Provider = "aws" ∧ AWS070.RequiredTypes = ["resource"] ∧
      AWS070.RequiredLabels = ["aws_elasticsearch_domain"]) ∧
    AWS070.appliesTo wildcard AWSProvider "resource" ["aws_elasticsearch_domain", y] = true ∧
    AWS070.appliesTo wildcard provider "resource" (x :: rest) = false ∧
    AWS070.appliesTo wildcard provider anyType [] = false ∧
    AWS070.appliesTo wildcard provider blockType labels = false := by
  refine ⟨⟨rfl, rfl, rfl⟩, ?_, ?_, ?_, ?_⟩
  · simp [Check.appliesTo, AWS070, AWSProvider, List.isPrefixOf]
  · have hx2 : ("aws_elasticsearch_domain" == x) = false := by
      simpa using fun h : "aws_elasticsearch_domain" = x => hx h.symm
    simp [Check.appliesTo, AWS070, List.isPrefixOf, hx2]
  · simp [Check.appliesTo, AWS070, List.isPrefixOf]
  · have ht2 : (blockType == "resource") = false := by simpa using ht
    simp [Check.appliesTo, AWS070, List.contains, List.elem, ht2]

/-- The registered rule applies to `resource "aws_elasticsearch_domain" "example"`, and
applies neither to `resource "aws_s3_bucket" "example"`, nor to a `resource` block
without labels, nor to `data "aws_elasticsearch_domain" "example"`. -/
theorem c8_registered_rule_applies_witness :
    AWS070.appliesTo "*" "aws" "resource" ["aws_elasticsearch_domain", "example"] = true ∧
    AWS070.appliesTo "*" "aws" "resource" ["aws_s3_bucket", "example"] = false ∧
    AWS070.appliesTo "*" "aws" "resource" [] = false ∧
    AWS070.appliesTo "*" "aws" "data" ["aws_elasticsearch_domain", "example"] = false :=
  (c8_registered_rule_applies "*" "aws" "example" "aws_s3_bucket" "resource" "data"
    ["example"] ["aws_elasticsearch_domain", "example"] (by decide) (by decide)).2

/-- C9: the check is pure and independent of the context.  Run on the store that holds
the block and a context, it returns the findings of `CheckFunc` and leaves the store as
it was: the block tree is unchanged and the context is unchanged.  Running it a second
time, on the store the first run left, returns the same findings, and for every two
contexts the findings are the same. -/
theorem c9_pure_and_context_independent (check : Check) (block : Block)
    (c1 c2 : Context) :
    ((CheckFuncStore check).run ⟨block, c1⟩).1 = CheckFunc check block c1 ∧
    ((CheckFuncStore check).run ⟨block, c1⟩).2.block = block ∧
    ((CheckFuncStore check).run ⟨block, c1⟩).2.context = c1 ∧
    ((CheckFuncStore check).run ((CheckFuncStore check).run ⟨block, c1⟩).2).1 =
      ((CheckFuncStore check).run ⟨block, c1⟩).1 ∧
    ((CheckFuncStore check).run ⟨block, c1⟩).1 = ((CheckFuncStore check).run ⟨block, c2⟩).1 ∧
    CheckFunc check block c1 = CheckFunc check block c2 := by
  have h1 := CheckFuncStore_run check ⟨block, c1⟩
  have h2 := CheckFuncStore_run check ⟨block, c2⟩
  refine ⟨?_, ?_, ?_, ?_, ?_, rfl⟩
  · rw [h1]
  · rw [h1]
  · rw [h1]
  · rw [h1]
    show ((CheckFuncStore check).run ⟨block, c1⟩).1 = CheckFunc check block c1
    rw [h1]
  · rw [h1, h2]
    rfl

/-- C10: the check result does not depend on the order of the block's children: a
block and the same block with its child blocks permuted get the same findings. -/
theorem c10_child_order_irrelevant (check : Check) (blockType : String)
    (labels : List String) (attributes : List Attribute) (children permuted : List Block)
    (sourceRange : Range) (ctx : Context) (hperm : children.Perm permuted) :
    CheckFunc check (Block.mk blockType labels attributes children sourceRange) ctx =
      CheckFunc check (Block.mk blockType labels attributes permuted sourceRange) ctx := by
  have hfilter := hperm.filter (fun child : Block => child.blockType == "log_publishing_options")
  have hlen := hfilter.length_eq
  have hfold :
      (children.filter (fun child : Block => child.blockType == "log_publishing_options")).foldl
          auditLogStep false =
        (permuted.filter (fun child : Block => child.blockType == "log_publishing_options")).foldl
          auditLogStep false := by
    rw [Bool.eq_iff_iff, foldl_auditLogStep_iff, foldl_auditLogStep_iff]
    constructor
    · rintro ⟨c, hc, hca⟩
      exact ⟨c, hfilter.mem_iff.1 hc, hca⟩
    · rintro ⟨c, hc, hca⟩
      exact ⟨c, hfilter.mem_iff.2 hc, hca⟩
  have hget : ∀ cs : List Block,
      (Block.mk blockType labels attributes cs sourceRange).GetBlocks "log_publishing_options" =
        cs.filter (fun child : Block => child.blockType == "log_publishing_options") :=
    fun _ => rfl
  have hmsg : auditLogMessage (Block.mk blockType labels attributes children sourceRange) =
      auditLogMessage (Block.mk blockType labels attributes permuted sourceRange) := rfl
  have hrange : (Block.mk blockType labels attributes children sourceRange).Range =
      (Block.mk blockType labels attributes permuted sourceRange).Range := rfl
  simp only [CheckFunc, hget, hlen, hfold, hmsg, hrange]

/-- A domain with an audit child between two non-audit children gets the same findings
(none) as the domain with the audit child moved to the front. -/
theorem c10_child_order_irrelevant_witness :
    CheckFunc AWS070
        (domain [logOption [logTypeAttr (Value.string "INDEX_SLOW_LOGS")],
          logOption [logTypeAttr (Value.string "AUDIT_LOGS")], logOption []]) emptyContext =
      CheckFunc AWS070
        (domain [logOption [logTypeAttr (Value.string "AUDIT_LOGS")],
          logOption [logTypeAttr (Value.string "INDEX_SLOW_LOGS")], logOption []])
        emptyContext :=
  c10_child_order_irrelevant AWS070 "resource" ["aws_elasticsearch_domain", "example"] []
    [logOption [logTypeAttr (Value.string "INDEX_SLOW_LOGS")],
      logOption [logTypeAttr (Value.string "AUDIT_LOGS")], logOption []]
    [logOption [logTypeAttr (Value.string "AUDIT_LOGS")],
      logOption [logTypeAttr (Value.string "INDEX_SLOW_LOGS")], logOption []]
    ⟨"main.tf", 2, 10⟩ emptyContext (List.Perm.swap _ _ _)

/-- C11: only direct child blocks of type `log_publishing_options` count: a block with
at least one direct `log_publishing_options` child, none of them with `log_type`
"AUDIT_LOGS", gets a finding whatever the block's own attributes, its direct children
of other types and the blocks nested below its children are, so also when
`log_type = "AUDIT_LOGS"` appears in any of those places. -/
theorem c11_only_direct_options_count (check : Check) (blockType : String)
    (labels : List String) (attributes : List Attribute) (children : List Block)
    (sourceRange : Range) (ctx : Context)
    (hex : ∃ c ∈ children, c.blockType = "log_publishing_options")
    (hno : ∀ c ∈ children, c.blockType = "log_publishing_options" → ¬ HasAuditLogType c) :
    ∃ r, CheckFunc check (Block.mk blockType labels attributes children sourceRange) ctx = [r] := by
  obtain ⟨c, hc, hct⟩ := hex
  exact ⟨_, CheckFunc_of_missing check _ ctx ⟨c, ⟨hc, hct⟩⟩ (fun d hd => hno d hd.1 hd.2)⟩

/-- The domain that has `log_type = "AUDIT_LOGS"` as its own attribute, in a direct
`cluster_config` child and in a block nested below its `log_publishing_options` child,
whose own `log_type` is "INDEX_SLOW_LOGS", gets a finding. -/
theorem c11_only_direct_options_count_witness :
    HasAuditLogType auditElsewhereBlock ∧
    (otherTypeChild ∈ auditElsewhereBlock.childBlocks ∧ HasAuditLogType otherTypeChild) ∧
    (∃ c ∈ auditElsewhereBlock.childBlocks, ∃ n ∈ c.childBlocks,
      c.blockType = "log_publishing_options" ∧ HasAuditLogType n) ∧
    ∃ r, CheckFunc AWS070 auditElsewhereBlock emptyContext = [r] :=
  ⟨⟨_, rfl, rfl⟩,
   ⟨List.mem_cons_self _ _, _, rfl, rfl⟩,
   ⟨slowLogOptionWithNested, List.mem_cons_of_mem _ (List.mem_singleton.2 rfl), _,
     List.mem_singleton.2 rfl, rfl, _, rfl, rfl⟩,
   c11_only_direct_options_count AWS070 "resource" ["aws_elasticsearch_domain", "example"]
     [logTypeAttr (Value.string "AUDIT_LOGS")] [otherTypeChild, slowLogOptionWithNested]
     ⟨"main.tf", 2, 10⟩ emptyContext
     ⟨slowLogOptionWithNested, List.mem_cons_of_mem _ (List.mem_singleton.2 rfl), rfl⟩
     (by
       intro c hc ht
       rcases List.mem_cons.1 hc with rfl | hc
       · exact absurd ht (by decide)
       · rw [List.mem_singleton.1 hc]
         exact not_hasAuditLogType_of_step _ (by decide))⟩

/-- C12: the check returns at most one finding for a block, however many
`log_publishing_options` children lack the "AUDIT_LOGS" log type. -/
theorem c12_at_most_one_finding (check : Check) (block : Block) (ctx : Context) :
    (CheckFunc check block ctx).length ≤ 1 := by
  unfold CheckFunc
  simp only
  split
  · split
    · exact Nat.le_refl 1
    · exact Nat.zero_le 1
  · exact Nat.zero_le 1

end Tfsec
